import Mathlib

/-!
Verification of the `epub2speech` content-cleaning classifier and segment
splitter against its natural-language specification.

The development is a shallow embedding of `epub2speech/extractor.py` and
`epub2speech/chapter_tts.py`:

* Python strings are Lean `String`s / `List Char` (both count code points,
  matching Python `len`).
* Python floats are modelled as `ℚ`.  Every score is a finite sum drawn from
  `{±2, ±1, ±1/2, 3/10}` and every threshold is one of the preset constants;
  no reachable sum lies close enough to a threshold for IEEE-754 rounding to
  change a comparison, so the rational model decides every branch exactly as
  the float code does.
* The handful of fixed regular expressions used by the source are embedded as
  hand-written decision procedures over `List Char`, faithful to the regex
  language (the Unicode classes `\s`, `\d`, `\w` are modelled by explicit
  character predicates; `\d`/`\w` are restricted to their ASCII portions,
  which is the only portion exercised by the source data).
* The Python stdlib `html.parser.HTMLParser` tokenizer is external to the
  repository; the repository's `_BlockExtractor` subclass is embedded as a
  fold over the event stream (`handle_starttag` / `handle_endtag` /
  `handle_data`) that the tokenizer feeds it.
-/

namespace Epub2Speech

/-! ## Python-style whitespace handling -/

/-- Characters matched by Python's `str.strip()` / regex `\s` (the whitespace
code points recognised by `str.isspace`). -/
def pyIsSpace (c : Char) : Bool :=
  let n := c.toNat
  n = 0x20 || (0x9 <= n && n <= 0xd) || (0x1c <= n && n <= 0x1f) || n = 0x85 ||
  n = 0xa0 || n = 0x1680 || (0x2000 <= n && n <= 0x200a) || n = 0x2028 ||
  n = 0x2029 || n = 0x202f || n = 0x205f || n = 0x3000

/-- Python `str.strip()` on a character list. -/
def pyStripL (l : List Char) : List Char :=
  ((l.dropWhile pyIsSpace).reverse.dropWhile pyIsSpace).reverse

/-- Python `str.strip()`. -/
def pyStrip (s : String) : String := String.mk (pyStripL s.data)

/-- Maximal runs of non-whitespace characters, in order; auxiliary
accumulator version (accumulator holds the current run, reversed). -/
def pyTokensAux : List Char → List Char → List (List Char)
  | [], acc => if acc.isEmpty then [] else [acc.reverse]
  | c :: cs, acc =>
    if pyIsSpace c then
      if acc.isEmpty then pyTokensAux cs [] else acc.reverse :: pyTokensAux cs []
    else
      pyTokensAux cs (c :: acc)

/-- Maximal runs of non-whitespace characters of a string, in order. -/
def pyTokens (l : List Char) : List (List Char) := pyTokensAux l []

/-- Join tokens with a single ASCII space. -/
def joinSp : List (List Char) → List Char
  | [] => []
  | [t] => t
  | t :: ts => t ++ ' ' :: joinSp ts

/-- Python `re.sub(r"\s+", " ", s).strip()`: every maximal whitespace run is
collapsed to one space and the ends are trimmed — equivalently, the
non-whitespace runs joined by single spaces. -/
def pyCleanWsL (l : List Char) : List Char := joinSp (pyTokens l)

/-- String version of `pyCleanWsL`. -/
def pyCleanWs (s : String) : String := String.mk (pyCleanWsL s.data)

/-! ## Character classes and word machinery -/

/-- ASCII letter, the class `[A-Za-z]` of `_WORD_RE`. -/
def isAsciiAlpha (c : Char) : Bool :=
  ('a' ≤ c && c ≤ 'z') || ('A' ≤ c && c ≤ 'Z')

/-- ASCII digit; models the regex class `\d` (the source data only ever
contains ASCII digits). -/
def isAsciiDigit (c : Char) : Bool := '0' ≤ c && c ≤ '9'

/-- ASCII lower-casing.  Python `str.lower` also folds non-ASCII letters, but
those are neither in `[A-Za-z]` before nor after folding, and the stopword
lists are pure ASCII, so ASCII folding decides every source comparison
identically. -/
def asciiLowerChar (c : Char) : Char :=
  if 'A' ≤ c && c ≤ 'Z' then Char.ofNat (c.toNat + 32) else c

/-- ASCII lower-casing of a character list. -/
def asciiLower (l : List Char) : List Char := l.map asciiLowerChar

/-- Maximal runs of ASCII letters (auxiliary, accumulator reversed). -/
def alphaRunsAux : List Char → List Char → List (List Char)
  | [], acc => if acc.isEmpty then [] else [acc.reverse]
  | c :: cs, acc =>
    if isAsciiAlpha c then alphaRunsAux cs (c :: acc)
    else if acc.isEmpty then alphaRunsAux cs []
    else acc.reverse :: alphaRunsAux cs []

/-- `_WORD_RE.findall`: the maximal `[A-Za-z]+` runs of a string, in order. -/
def alphaRuns (l : List Char) : List (List Char) := alphaRunsAux l []

/-- `_english_word_count`: number of `[A-Za-z]+` runs. -/
def english_word_count (l : List Char) : ℕ := (alphaRuns l).length

/-- Non-overlapping substring count, Python `str.count`, with explicit fuel
(the scan position advances by the pattern length at each hit). -/
def countSubstrAux (p : List Char) : ℕ → List Char → ℕ
  | 0, _ => 0
  | _, [] => 0
  | fuel + 1, c :: cs =>
    if p.isPrefixOf (c :: cs) then
      1 + countSubstrAux p fuel ((c :: cs).drop p.length)
    else
      countSubstrAux p fuel cs

/-- Non-overlapping substring count, Python `str.count`. -/
def countSubstr (p l : List Char) : ℕ := countSubstrAux p l.length l

/-- `_ZH_STOPWORD_HINTS`. -/
def ZH_STOPWORD_HINTS : List String :=
  ["的", "了", "是", "在", "和", "与", "及", "并", "而", "但",
   "如果", "因为", "所以", "我们", "他们", "你们", "这", "那"]

/-- `_EN_STOPWORDS`. -/
def EN_STOPWORDS : List String :=
  ["the", "a", "an", "and", "or", "but", "if", "then", "than", "to", "of",
   "for", "on", "in", "at", "by", "with", "is", "are", "was", "were", "be",
   "been", "it", "this", "that", "these", "those", "as", "from", "we", "you",
   "they", "he", "she"]

/-- `_estimate_stopword_density`: max of the English token-based stopword
ratio and the Chinese substring-count ratio. -/
def estimate_stopword_density (l : List Char) : ℚ :=
  let ws := alphaRuns (asciiLower l)
  let en : ℚ :=
    if ws.length = 0 then 0
    else ((ws.countP fun w => EN_STOPWORDS.contains (String.mk w) : ℕ) : ℚ) / (ws.length : ℚ)
  let zhHits : ℕ := (ZH_STOPWORD_HINTS.map fun h => countSubstr h.data l).sum
  let zh : ℚ := (zhHits : ℚ) / ((max l.length 1 : ℕ) : ℚ)
  max en zh

/-- The character class of `_PUNCT_RE`: `[。！？!?;；:,，.]`. -/
def punctChars : List Char := ['。', '！', '？', '!', '?', ';', '；', ':', ',', '，', '.']

/-- Number of `_PUNCT_RE` matches in a text. -/
def countPunct (l : List Char) : ℕ := l.countP fun c => punctChars.contains c

/-- The sentence-final set the classifier bonus actually searches for
(`re.search(r"[。！？!?]", text)`); note the Latin period is not in it. -/
def sentenceTerminalChars : List Char := ['。', '！', '？', '!', '?']

/-- Whether the text contains a character of `[。！？!?]`. -/
def containsSentenceTerminal (l : List Char) : Bool :=
  l.any fun c => sentenceTerminalChars.contains c

/-- CJK unified ideograph test, the regex class `[一-鿿]`. -/
def isCjk (c : Char) : Bool := 0x4e00 ≤ c.toNat && c.toNat ≤ 0x9fff

/-! ## Noise-pattern matchers

Each definition decides one of the module-level regexes of `extractor.py`
(`fullmatch` semantics unless noted).  `\w` is modelled on its ASCII part. -/

/-- `_TOC_HEADER_RE` (`^(目录|目次|contents?|table of contents)$`, ignorecase). -/
def tocHeaderMatch (l : List Char) : Bool :=
  let low := asciiLower l
  low = "目录".data || low = "目次".data || low = "content".data ||
  low = "contents".data || low = "table of contents".data

/-- The character class of `_DECORATION_RE`. -/
def decorationChars : List Char := ['_', '-', '=', '~', '*', '#', '·', '.', '•', '⋯', '…']

/-- `_DECORATION_RE` (`^[_\-=~*#·.•⋯…]{3,}$`). -/
def decorationMatch (l : List Char) : Bool :=
  3 ≤ l.length && l.all fun c => decorationChars.contains c

/-- A run of one to four ASCII digits (`\d{1,4}` against the whole rest). -/
def digits1to4 (l : List Char) : Bool :=
  1 ≤ l.length && l.length ≤ 4 && l.all isAsciiDigit

/-- `_PAGE_NUMBER_RE` (`^(?:page\s*)?\d{1,4}$`, ignorecase). -/
def pageNumberMatch (l : List Char) : Bool :=
  let low := asciiLower l
  digits1to4 low ||
  ("page".data.isPrefixOf low && digits1to4 ((low.drop 4).dropWhile pyIsSpace))

/-- Characters whose length-two-or-more runs form a TOC leader
(`\.{2,}|_{2,}|-{2,}|…{2,}|·{2,}|⋯{2,}`). -/
def leaderChars : List Char := ['.', '_', '-', '…', '·', '⋯']

/-- Decides `(?:\.{2,}|_{2,}|-{2,}|…{2,}|·{2,}|⋯{2,})\s*\d{1,4}` against the
whole rest of the line: a run of at least two equal leader characters, then
optional whitespace, then one to four digits ending the line.  (Leader
characters are neither whitespace nor digits, so the maximal run is the only
candidate.) -/
def leaderTailMatch : List Char → Bool
  | [] => false
  | c :: cs =>
    leaderChars.contains c &&
    (let run := (c :: cs).takeWhile fun d => d = c
     let rest := (c :: cs).dropWhile fun d => d = c
     2 ≤ run.length && digits1to4 (rest.dropWhile pyIsSpace))

/-- `_TOC_LEADER_RE` (`^.{1,120}(?:leader)\s*\d{1,4}$`): some split of the
line into a newline-free prefix of length 1–120 and a leader tail. -/
def tocLeaderMatch (l : List Char) : Bool :=
  (List.range 121).any fun k =>
    1 ≤ k && ((l.take k).all fun c => c ≠ '\n') && leaderTailMatch (l.drop k)

/-- The numeral class of `_TOC_ENTRY_ZH_RE`. -/
def isZhNum (c : Char) : Bool :=
  isAsciiDigit c ||
  ['一', '二', '三', '四', '五', '六', '七', '八', '九', '十',
   '百', '千', '万', '零', '〇', '两'].contains c

/-- The chapter-marker class `[章节卷部篇回]`. -/
def zhChapterMarkers : List Char := ['章', '节', '卷', '部', '篇', '回']

/-- Decides `\s*.*` against a prefix: optional whitespace followed by
newline-free arbitrary text. -/
def wsDotStar (p : List Char) : Bool :=
  (p.dropWhile pyIsSpace).all fun c => c ≠ '\n'

/-- Tail of `_TOC_ENTRY_ZH_RE` after the chapter marker:
`\s*.*(?:leader)\s*\d{1,4}$`. -/
def zhTailMatch (r : List Char) : Bool :=
  (List.range (r.length + 1)).any fun k =>
    wsDotStar (r.take k) && leaderTailMatch (r.drop k)

/-- `_TOC_ENTRY_ZH_RE`
(`^第?[0-9一二三四五六七八九十百千万零〇两]+[章节卷部篇回]\s*.*(?:leader)\s*\d{1,4}$`). -/
def tocEntryZhMatch (l : List Char) : Bool :=
  let l1 := if l.head? = some '第' then l.drop 1 else l
  let nums := l1.takeWhile isZhNum
  let rest := l1.dropWhile isZhNum
  !nums.isEmpty &&
  (match rest with
   | [] => false
   | m :: rest2 => zhChapterMarkers.contains m && zhTailMatch rest2)

/-- ASCII part of the regex word class `\w`. -/
def isWordChar (c : Char) : Bool := isAsciiAlpha c || isAsciiDigit c || c = '_'

/-- Word boundary `\b` before the rest of the line: the next character is a
non-word character, or the line ends. -/
def boundaryAt (r : List Char) : Bool :=
  match r.head? with
  | none => true
  | some c => !isWordChar c

/-- Tail of `_TOC_ENTRY_EN_RE` after the keyword and its word boundary:
`.*(?:leader)\s*\d{1,4}$` with a newline-free `.*`. -/
def enTailMatch (r : List Char) : Bool :=
  (List.range (r.length + 1)).any fun k =>
    ((r.take k).all fun c => c ≠ '\n') && leaderTailMatch (r.drop k)

/-- `_TOC_ENTRY_EN_RE`
(`^(chapter|section|part|book|appendix)\b.*(?:leader)\s*\d{1,4}$`, ignorecase). -/
def tocEntryEnMatch (l : List Char) : Bool :=
  let low := asciiLower l
  ["chapter", "section", "part", "book", "appendix"].any fun kw =>
    kw.data.isPrefixOf low &&
    (let rest := low.drop kw.data.length
     boundaryAt rest && enTailMatch rest)

/-- Roman-numeral letters `[ivxlcdm]` (on lowercased text). -/
def isRomanChar (c : Char) : Bool :=
  ['i', 'v', 'x', 'l', 'c', 'd', 'm'].contains c

/-- Decides `([ivxlcdm]+|\d+)\b` against the start of `b`: a nonempty run of
roman letters or of digits whose end sits at a word boundary.  (All run
characters are word characters, so only the maximal run can be followed by a
boundary.) -/
def romanOrDigitsThenBoundary (b : List Char) : Bool :=
  (!(b.takeWhile isRomanChar).isEmpty && boundaryAt (b.dropWhile isRomanChar)) ||
  (!(b.takeWhile isAsciiDigit).isEmpty && boundaryAt (b.dropWhile isAsciiDigit))

/-- `_LIKELY_TOC_SHORT_EN_RE.match`
(`^(chapter|section|part|book)\s+([ivxlcdm]+|\d+)\b`, ignorecase, prefix
match). -/
def likelyTocShortEnMatch (l : List Char) : Bool :=
  let low := asciiLower l
  ["chapter", "section", "part", "book"].any fun kw =>
    kw.data.isPrefixOf low &&
    (let r := low.drop kw.data.length
     match r with
     | [] => false
     | c :: _ => pyIsSpace c && romanOrDigitsThenBoundary (r.dropWhile pyIsSpace))

/-- `_is_noise_line`. -/
def is_noise_line (s : String) : Bool :=
  let stripped := pyStripL s.data
  if stripped.isEmpty then true
  else
    let compact := pyCleanWsL stripped
    tocHeaderMatch compact || decorationMatch compact || pageNumberMatch compact ||
    tocLeaderMatch compact || tocEntryZhMatch compact || tocEntryEnMatch compact

/-! ## Decorative-wrapper and title normalization

Embedding of `_normalize_wrapped_decoration_text` and
`_normalize_tts_punctuation_text`.  `re.sub` is modelled by a left-to-right
scan; at each position the fixed pattern is matched with Python's
backtracking priority (greedy side runs and whitespace, lazy inner group,
alternatives in written order). -/

/-- The wrapper-side class `[-_=~*#]` of `_WRAPPER_SIDE_PATTERN`. -/
def sideChars : List Char := ['-', '_', '=', '~', '*', '#']

/-- `_GENERIC_WRAPPER_MARKERS`. -/
def GENERIC_WRAPPER_MARKERS : List String := ["正文", "简介", "内容简介", "正文开始"]

/-- Alternation step of `_GENERIC_WRAPPED_MARKER_RE`: try each marker in
written order at `r2`; on success the tail must be `\s*[-_=~*#]{2,}`. -/
def tryMarkers : List String → List Char → Option (List Char)
  | [], _ => none
  | m :: ms, r2 =>
    if m.data.isPrefixOf r2 then
      let r3 := (r2.drop m.data.length).dropWhile pyIsSpace
      let run2 := (r3.takeWhile fun d => sideChars.contains d).length
      if 2 ≤ run2 then some (r3.drop run2) else tryMarkers ms r2
    else tryMarkers ms r2

/-- Match `_GENERIC_WRAPPED_MARKER_RE`
(`[-_=~*#]{2,}\s*(正文|简介|内容简介|正文开始)\s*[-_=~*#]{2,}`) at the start
of `l`; returns the remainder after the match.  Side runs and the whitespace
runs are forced maximal because side, whitespace and marker characters are
pairwise disjoint. -/
def matchWrapper1At (l : List Char) : Option (List Char) :=
  let run1 := (l.takeWhile fun d => sideChars.contains d).length
  if run1 < 2 then none
  else tryMarkers ["正文", "简介", "内容简介", "正文开始"]
    ((l.drop run1).dropWhile pyIsSpace)

/-- Scan of `_GENERIC_WRAPPED_MARKER_RE.sub(" ", text)`: leftmost
non-overlapping matches replaced by one space (fuel = remaining length; every
step consumes at least one character). -/
def sub1Aux : ℕ → List Char → List Char
  | 0, l => l
  | _, [] => []
  | fuel + 1, c :: cs =>
    match matchWrapper1At (c :: cs) with
    | some rest => ' ' :: sub1Aux fuel rest
    | none => c :: sub1Aux fuel cs

/-- `_GENERIC_WRAPPED_MARKER_RE.sub(" ", ·)`. -/
def sub1 (l : List Char) : List Char := sub1Aux l.length l

/-- Match `_ANY_WRAPPED_DECORATION_RE`
(`[-_=~*#]{2,}\s*([^\n]{1,80}?)\s*[-_=~*#]{2,}`) at the start of `l`,
returning the captured inner group and the remainder.  Backtracking priority:
the first side run greedy (longest first), the following `\s*` greedy, the
inner group lazy (shortest first); the trailing `\s*` and side run are forced
maximal. -/
def matchWrapper2At (l : List Char) : Option (List Char × List Char) :=
  let m1 := (l.takeWhile fun d => sideChars.contains d).length
  if m1 < 2 then none
  else
    ((List.range (m1 - 1)).map fun k => m1 - k).findSome? fun s1 =>
      let l1 := l.drop s1
      let w1max := (l1.takeWhile pyIsSpace).length
      ((List.range (w1max + 1)).map fun k => w1max - k).findSome? fun w1 =>
        let l2 := l1.drop w1
        ((List.range (min 80 l2.length)).map fun k => k + 1).findSome? fun i =>
          let inner := l2.take i
          if inner.contains '\n' then none
          else
            let l4 := (l2.drop i).dropWhile pyIsSpace
            let run2 := (l4.takeWhile fun d => sideChars.contains d).length
            if 2 ≤ run2 then some (inner, l4.drop run2) else none

/-- The replacement callback `_replace_wrapped`: collapse the inner group;
drop it when empty or a generic marker, else keep it with one space on each
side. -/
def replaceWrapped (inner : List Char) : List Char :=
  let innerC := pyCleanWsL inner
  if innerC.isEmpty || GENERIC_WRAPPER_MARKERS.contains (String.mk innerC) then [' ']
  else ' ' :: (innerC ++ [' '])

/-- Scan of `_ANY_WRAPPED_DECORATION_RE.sub(_replace_wrapped, text)`; the
Boolean reports whether any match fired (the callback sets `had_change`). -/
def sub2Aux : ℕ → List Char → List Char × Bool
  | 0, l => (l, false)
  | _, [] => ([], false)
  | fuel + 1, c :: cs =>
    match matchWrapper2At (c :: cs) with
    | some (inner, rest) =>
      let t := sub2Aux fuel rest
      (replaceWrapped inner ++ t.1, true)
    | none =>
      let t := sub2Aux fuel cs
      (c :: t.1, t.2)

/-- `_normalize_wrapped_decoration_text`. -/
def normalize_wrapped_decoration_text (s : String) : String × Bool :=
  let l := s.data
  let l1 := sub1 l
  let had1 : Bool := l1 ≠ l
  let r2 := sub2Aux l1.length l1
  (String.mk (pyCleanWsL r2.1), had1 || r2.2)

/-- Match `_BOOK_TITLE_IN_PARENS_RE` (`[（(]\s*《([^》]{1,120})》\s*[）)]`) at
the start of `l`; returns the captured title and the remainder. -/
def matchBookTitleAt : List Char → Option (List Char × List Char)
  | [] => none
  | c :: cs =>
    if c = '（' || c = '(' then
      match cs.dropWhile pyIsSpace with
      | '《' :: r2 =>
        let inner := r2.takeWhile fun d => d ≠ '》'
        let rest := r2.dropWhile fun d => d ≠ '》'
        if 1 ≤ inner.length && inner.length ≤ 120 then
          match rest with
          | '》' :: r3 =>
            (match r3.dropWhile pyIsSpace with
             | c2 :: r5 => if c2 = '）' || c2 = ')' then some (inner, r5) else none
             | [] => none)
          | _ => none
        else none
      | _ => none
    else none

/-- Scan of `_BOOK_TITLE_IN_PARENS_RE.sub(r"《\1》", text)`. -/
def subBookAux : ℕ → List Char → List Char
  | 0, l => l
  | _, [] => []
  | fuel + 1, c :: cs =>
    match matchBookTitleAt (c :: cs) with
    | some (inner, rest) => '《' :: (inner ++ '》' :: subBookAux fuel rest)
    | none => c :: subBookAux fuel cs

/-- `_normalize_tts_punctuation_text`. -/
def normalize_tts_punctuation_text (s : String) : String :=
  String.mk (pyCleanWsL (subBookAux s.data.length s.data))

/-! ## Data model -/

/-- `_Block` (a mutable dataclass in the source; embedded immutably, the
mutating passes return updated copies).  Scores and densities are `ℚ`. -/
structure Block where
  index : ℕ
  tag : String
  text : String
  total_chars : ℕ
  link_chars : ℕ
  is_heading : Bool
  keep : Bool := false
  classification : String := "short"
  reason : String := ""
  score : ℚ := 0
  link_density : ℚ := 0
  punct_density : ℚ := 0
  stopword_density : ℚ := 0
deriving DecidableEq, Repr

/-- `_StrictnessConfig`. -/
structure StrictnessConfig where
  short_length : ℕ
  low_length : ℕ
  high_length : ℕ
  max_link_density : ℚ
  min_punct_density : ℚ
  min_stopword_density : ℚ
  good_score : ℚ
  bad_score : ℚ
deriving DecidableEq, Repr

/-- `TEXT_CLEANING_STRICTNESS_LEVELS`. -/
def TEXT_CLEANING_STRICTNESS_LEVELS : List String :=
  ["conservative", "balanced", "aggressive"]

/-- The `conservative` row of `_STRICTNESS_CONFIGS`. -/
def conservativeConfig : StrictnessConfig :=
  { short_length := 18, low_length := 60, high_length := 180,
    max_link_density := 55/100, min_punct_density := 3/1000,
    min_stopword_density := 5/1000, good_score := 1/2, bad_score := -(5/2) }

/-- The `balanced` row of `_STRICTNESS_CONFIGS`. -/
def balancedConfig : StrictnessConfig :=
  { short_length := 25, low_length := 70, high_length := 200,
    max_link_density := 35/100, min_punct_density := 4/1000,
    min_stopword_density := 8/1000, good_score := 1, bad_score := -2 }

/-- The `aggressive` row of `_STRICTNESS_CONFIGS`. -/
def aggressiveConfig : StrictnessConfig :=
  { short_length := 35, low_length := 80, high_length := 220,
    max_link_density := 25/100, min_punct_density := 5/1000,
    min_stopword_density := 1/100, good_score := 12/10, bad_score := -(15/10) }

/-- `_STRICTNESS_CONFIGS` as a keyed lookup. -/
def STRICTNESS_CONFIGS (s : String) : Option StrictnessConfig :=
  if s = "conservative" then some conservativeConfig
  else if s = "balanced" then some balancedConfig
  else if s = "aggressive" then some aggressiveConfig
  else none

/-! ## Block classifier

`_classify_block` is embedded with its local expressions as named
definitions (one per source expression), and the classification steps
assembled from them; scores and densities are rational. -/

/-- The classifier's working text: the block text after the wrapped
decoration and TTS punctuation normalizations. -/
def classifyNormText (b : Block) : String :=
  normalize_tts_punctuation_text (normalize_wrapped_decoration_text b.text).1

/-- The `had_wrapped_change` flag from `_normalize_wrapped_decoration_text`. -/
def classifyHadChange (b : Block) : Bool :=
  (normalize_wrapped_decoration_text b.text).2

/-- The early-exit guard `had_wrapped_change and not text`. -/
def classifyWrapperBad (b : Block) : Bool :=
  classifyHadChange b && classifyNormText b = ""

/-- `char_len = len(text)`. -/
def classifyCharLen (b : Block) : ℕ := (classifyNormText b).data.length

/-- `link_density = link_chars / max(total_chars, 1)`. -/
def classifyLinkDensity (b : Block) : ℚ :=
  (b.link_chars : ℚ) / ((max b.total_chars 1 : ℕ) : ℚ)

/-- `punct_density = len(_PUNCT_RE.findall(text)) / max(char_len, 1)`. -/
def classifyPunctDensity (b : Block) : ℚ :=
  ((countPunct (classifyNormText b).data : ℕ) : ℚ) / ((max (classifyCharLen b) 1 : ℕ) : ℚ)

/-- `stopword_density = _estimate_stopword_density(text)`. -/
def classifyStopwordDensity (b : Block) : ℚ :=
  estimate_stopword_density (classifyNormText b).data

/-- The length bonus: `+2` at `high_length`, else `+1` at `low_length`. -/
def classifyLengthScore (config : StrictnessConfig) (b : Block) : ℚ :=
  if config.high_length ≤ classifyCharLen b then 2
  else if config.low_length ≤ classifyCharLen b then 1
  else 0

/-- The high-link-density penalty guard `link_density > max_link_density`. -/
def classifyLinkHit (config : StrictnessConfig) (b : Block) : Bool :=
  config.max_link_density < classifyLinkDensity b

/-- The low-punctuation penalty guard
`punct_density < min_punct_density and char_len >= low_length`. -/
def classifyPunctHit (config : StrictnessConfig) (b : Block) : Bool :=
  classifyPunctDensity b < config.min_punct_density ∧ config.low_length ≤ classifyCharLen b

/-- The stopword bonus guard `stopword_density >= min_stopword_density`. -/
def classifyStopHit (config : StrictnessConfig) (b : Block) : Bool :=
  config.min_stopword_density ≤ classifyStopwordDensity b

/-- The sentence-final bonus guard `re.search(r"[。！？!?]", text)`. -/
def classifySentenceHit (b : Block) : Bool :=
  containsSentenceTerminal (classifyNormText b).data

/-- `_classify_block`.  The mutation of the block is modelled by returning
the updated block; the score is accumulated through the same sequence of
conditional increments as the source. -/
def classify_block (config : StrictnessConfig) (b : Block) : Block :=
  let text := classifyNormText b
  let b1 := { b with text := text }
  if classifyWrapperBad b then
    { b1 with classification := "bad", reason := "decorative_wrapper_marker", score := -10 }
  else
    let b2 := { b1 with
      link_density := classifyLinkDensity b,
      punct_density := classifyPunctDensity b,
      stopword_density := classifyStopwordDensity b }
    if is_noise_line text then
      { b2 with classification := "bad", reason := "noise_pattern", score := -10 }
    else
      let score1 := classifyLengthScore config b
      let score2 := if classifyLinkHit config b then score1 - 2 else score1
      let reason1 := if classifyLinkHit config b then "high_link_density" else "content_like"
      let score3 := if classifyPunctHit config b then score2 - 1 else score2
      let reason2 := if classifyPunctHit config b then "low_punctuation_density" else reason1
      let score4 := if classifyStopHit config b then score3 + 1/2 else score3
      let score5 := if classifySentenceHit b then score4 + 1/2 else score4
      let score6 := if b.is_heading then score5 + 3/10 else score5
      let cls :=
        if classifyCharLen b < config.short_length then "short"
        else if config.good_score ≤ score6 then "good"
        else if score6 ≤ config.bad_score then "bad"
        else "near_good"
      { b2 with score := score6, reason := reason2, classification := cls }

/-! ## Context reclassifier

`_apply_context_reclassification` runs two in-place left-to-right passes over
the block list.  Each pass is embedded as a fold over the index range; at
index `i` the loop body reads the previous and next neighbours and rewrites
position `i`.  In the `real` variant both neighbours are read from the
current (partially rewritten) list, exactly as the Python loop reads
`blocks[idx - 1]` and `blocks[idx + 1]`; the `hybrid` and `snapshot`
variants, used to analyse the traversal, read the next (resp. both)
neighbours from the list as it was when the pass started. -/

/-- `classification in ("good", "near_good")` on an optional neighbour. -/
def goodOrNear (c : Option String) : Bool :=
  c = some "good" || c = some "near_good"

/-- Loop body of the first reclassification pass (`extractor.py` lines
380–428) at one index, as a function of the strictness, the neighbours as
read by the loop, and the block at the index.  `prev?`/`next?` being `none`
models `idx == 0` / `idx + 1 == len(blocks)`. -/
def pass1Decide (strictness : String) (prev? next? : Option Block) (b : Block) : Block :=
  let prevCls := prev?.map fun x => x.classification
  let nextCls := next?.map fun x => x.classification
  let prevText := (prev?.map fun x => x.text).getD ""
  let nextText := (next?.map fun x => x.text).getD ""
  let b1 :=
    if b.classification = "short" then
      if b.is_heading ∧ goodOrNear nextCls then
        { b with classification := "near_good", reason := "heading_with_content_context" }
      else if prevCls = some "good" ∧ nextCls = some "good" then
        { b with classification := "near_good", reason := "surrounded_by_content" }
      else if containsSentenceTerminal b.text.data ∧ 4 ≤ b.text.data.length then
        { b with classification := "near_good", reason := "short_but_sentence_like" }
      else if b.text.data.any isCjk ∧ 4 ≤ b.text.data.length ∧ ¬is_noise_line b.text then
        { b with classification := "near_good", reason := "short_cjk_content_like" }
      else if strictness ≠ "aggressive" ∧ 4 ≤ english_word_count b.text.data ∧
          (12/100 : ℚ) ≤ b.stopword_density ∧ ¬likelyTocShortEnMatch b.text.data then
        { b with classification := "near_good", reason := "short_en_content_like" }
      else if strictness ≠ "aggressive" ∧ goodOrNear nextCls ∧ next?.isSome ∧
          2 ≤ english_word_count b.text.data ∧
          6 ≤ english_word_count (b.text.data ++ ' ' :: nextText.data) ∧
          ¬likelyTocShortEnMatch b.text.data then
        { b with classification := "near_good", reason := "short_prefix_for_content" }
      else if strictness ≠ "aggressive" ∧ goodOrNear prevCls ∧ prev?.isSome ∧
          2 ≤ english_word_count b.text.data ∧
          6 ≤ english_word_count (prevText.data ++ ' ' :: b.text.data) ∧
          ¬likelyTocShortEnMatch b.text.data then
        { b with classification := "near_good", reason := "short_suffix_for_content" }
      else if strictness = "conservative" then
        { b with classification := "near_good", reason := "conservative_short_keep" }
      else b
    else b
  if b1.classification = "near_good" ∧ goodOrNear prevCls ∧ goodOrNear nextCls then
    { b1 with classification := "good", reason := "context_promoted" }
  else b1

/-- Loop body of the second reclassification pass (`extractor.py` lines
432–457) at one index. -/
def pass2Decide (_strictness : String) (prev? next? : Option Block) (b : Block) : Block :=
  let prevCls := prev?.map fun x => x.classification
  let nextCls := next?.map fun x => x.classification
  let prevText := (prev?.map fun x => x.text).getD ""
  let nextText := (next?.map fun x => x.text).getD ""
  if b.classification ≠ "short" then b
  else if goodOrNear nextCls ∧ next?.isSome ∧
      2 ≤ english_word_count b.text.data ∧
      6 ≤ english_word_count (b.text.data ++ ' ' :: nextText.data) ∧
      ¬likelyTocShortEnMatch b.text.data then
    { b with classification := "near_good", reason := "short_prefix_for_content" }
  else if goodOrNear prevCls ∧ prev?.isSome ∧
      2 ≤ english_word_count b.text.data ∧
      6 ≤ english_word_count (prevText.data ++ ' ' :: b.text.data) ∧
      ¬likelyTocShortEnMatch b.text.data then
    { b with classification := "near_good", reason := "short_suffix_for_content" }
  else b

/-- One loop iteration at index `i`: rewrite position `i` of `cur` using the
decision `d`, reading the previous neighbour from `cur` and the next
neighbour from `readNext`. -/
def stepAt (d : Option Block → Option Block → Block → Block)
    (readNext cur : List Block) (i : ℕ) : List Block :=
  match cur[i]? with
  | none => cur
  | some b => cur.set i (d (if i = 0 then none else cur[i - 1]?) (readNext[i + 1]?) b)

/-- An in-place pass as the source runs it: both neighbours are read from the
current list, so writes at earlier indices are visible to later iterations. -/
def realPass (d : Option Block → Option Block → Block → Block) (bs : List Block) : List Block :=
  (List.range bs.length).foldl (fun cur i => stepAt d cur cur i) bs

/-- A pass that reads the next neighbour from the pre-pass list and the
previous neighbour from the current list. -/
def hybridPass (d : Option Block → Option Block → Block → Block) (bs : List Block) : List Block :=
  (List.range bs.length).foldl (fun cur i => stepAt d bs cur i) bs

/-- One iteration of the snapshot traversal: both neighbours are read from
the pre-pass list `orig`. -/
def snapStepAt (d : Option Block → Option Block → Block → Block)
    (orig cur : List Block) (i : ℕ) : List Block :=
  match cur[i]? with
  | none => cur
  | some b => cur.set i (d (if i = 0 then none else orig[i - 1]?) (orig[i + 1]?) b)

/-- The traversal described by the specification: every decision reads the
previous and next classifications from an immutable copy taken at the start
of the pass. -/
def snapshotPass (d : Option Block → Option Block → Block → Block) (bs : List Block) : List Block :=
  (List.range bs.length).foldl (fun cur i => snapStepAt d bs cur i) bs

/-- `_apply_context_reclassification`: pass 1, then (except under
`aggressive` strictness) pass 2. -/
def apply_context_reclassification (strictness : String) (bs : List Block) : List Block :=
  let p1 := realPass (pass1Decide strictness) bs
  if strictness ≠ "aggressive" then realPass (pass2Decide strictness) p1 else p1

/-- The same two passes with every pass run on its pre-pass snapshot, the
reading discipline asserted by the specification. -/
def snapshotContextReclassification (strictness : String) (bs : List Block) : List Block :=
  let p1 := snapshotPass (pass1Decide strictness) bs
  if strictness ≠ "aggressive" then snapshotPass (pass2Decide strictness) p1 else p1

/-- The two passes with the next neighbour read from the pre-pass snapshot
and the previous neighbour read live. -/
def hybridContextReclassification (strictness : String) (bs : List Block) : List Block :=
  let p1 := hybridPass (pass1Decide strictness) bs
  if strictness ≠ "aggressive" then hybridPass (pass2Decide strictness) p1 else p1

/-! ## Keep decision and report -/

/-- `_finalize_keep_decision`. -/
def finalize_keep_decision (strictness : String) (bs : List Block) : List Block :=
  bs.map fun b =>
    if b.classification = "good" then { b with keep := true }
    else if b.classification = "near_good" then
      if strictness = "aggressive" ∧
          (b.reason = "high_link_density" ∨ b.reason = "low_punctuation_density") then
        { b with keep := false }
      else { b with keep := true }
    else { b with keep := false }

/-- Python `round(x, 3)` on the rational model: scale by 1000 and round half
to even. -/
def round3 (q : ℚ) : ℚ :=
  let x := q * 1000
  let f : ℤ := Int.floor x
  let r : ℚ := x - f
  let n : ℤ :=
    if r < 1/2 then f
    else if 1/2 < r then f + 1
    else if f % 2 = 0 then f else f + 1
  (n : ℚ) / 1000

/-- One entry of `removed_samples` in `_serialize_report` (the keys of the
per-block dict). -/
structure RemovedSample where
  index : ℕ
  tag : String
  text : String
  classification : String
  reason : String
  score : ℚ
  link_density : ℚ
  punct_density : ℚ
  stopword_density : ℚ
deriving DecidableEq, Repr

/-- The sample dict built for one removed block. -/
def mkRemovedSample (b : Block) : RemovedSample :=
  { index := b.index, tag := b.tag, text := String.mk (b.text.data.take 200),
    classification := b.classification, reason := b.reason,
    score := round3 b.score, link_density := round3 b.link_density,
    punct_density := round3 b.punct_density,
    stopword_density := round3 b.stopword_density }

/-- The report returned by `_serialize_report` (same field set as the dict
literal in the source; `reportToDict` below recovers the dict shape). -/
structure CleaningReport where
  strictness : String
  total_blocks : ℕ
  kept_blocks : ℕ
  removed_blocks : ℕ
  removed_samples : List RemovedSample
deriving DecidableEq, Repr

/-- `_serialize_report`. -/
def serialize_report (bs : List Block) (strictness : String) : CleaningReport :=
  let removed := bs.filter fun b => !b.keep
  let kept := bs.filter fun b => b.keep
  { strictness := strictness, total_blocks := bs.length,
    kept_blocks := kept.length, removed_blocks := removed.length,
    removed_samples := (removed.take 20).map mkRemovedSample }

/-- Values of the Python report dict. -/
inductive ReportValue where
  | str (s : String)
  | num (n : ℕ)
  | samples (l : List RemovedSample)
deriving DecidableEq, Repr

/-- The key–value pairs of the dict literal returned by `_serialize_report`,
in source order. -/
def reportToDict (r : CleaningReport) : List (String × ReportValue) :=
  [("strictness", .str r.strictness),
   ("total_blocks", .num r.total_blocks),
   ("kept_blocks", .num r.kept_blocks),
   ("removed_blocks", .num r.removed_blocks),
   ("removed_samples", .samples r.removed_samples)]

/-- Dict key lookup. -/
def dictLookup (d : List (String × ReportValue)) (k : String) : Option ReportValue :=
  (d.find? fun p => p.1 = k).map fun p => p.2

/-! ## Cleaning pipeline -/

/-- `_clean_with_block_pipeline`.  The source indexes
`_STRICTNESS_CONFIGS[cleaning_strictness]`, which its callers only reach with
a validated strictness; the lookup default is never observable through
`extract_text_from_html_with_report`. -/
def clean_with_block_pipeline (strictness : String) (blocks : List Block) :
    String × CleaningReport :=
  let config := (STRICTNESS_CONFIGS strictness).getD balancedConfig
  let classified := blocks.map (classify_block config)
  let reclassified := apply_context_reclassification strictness classified
  let final := finalize_keep_decision strictness reclassified
  let keptLines := (final.filter fun b => b.keep && b.text != "").map fun b => b.text
  let cleaned := pyCleanWs (String.intercalate " " keptLines)
  (cleaned, serialize_report final strictness)

/-! ## Block extractor (HTML-parser path)

`_BlockExtractor` subclasses the stdlib `html.parser.HTMLParser`; the stdlib
tokenizer (external to this repository) feeds it a stream of
`handle_starttag` / `handle_endtag` / `handle_data` events, embedded here as
a fold over an explicit event list. -/

/-- One tokenizer callback. -/
inductive HtmlEvent where
  | startTag (tag : String)
  | endTag (tag : String)
  | data (text : String)
deriving DecidableEq, Repr

/-- `_BLOCK_ELEMENTS`. -/
def BLOCK_ELEMENTS : List String :=
  ["p", "div", "h1", "h2", "h3", "h4", "h5", "h6", "li", "br", "hr"]

/-- `_HEADING_ELEMENTS`. -/
def HEADING_ELEMENTS : List String := ["h1", "h2", "h3", "h4", "h5", "h6"]

/-- `_BLACKLIST_TAGS`. -/
def BLACKLIST_TAGS : List String :=
  ["script", "style", "noscript", "iframe", "object", "embed", "param",
   "source", "track", "canvas", "svg", "math", "template", "slot"]

/-- The mutable state of `_BlockExtractor`. -/
structure ExtractorState where
  blacklist_depth : ℕ
  link_depth : ℕ
  blocks : List Block
  current : Option Block
deriving Repr

/-- `_BlockExtractor.__init__`. -/
def initExtractorState : ExtractorState :=
  { blacklist_depth := 0, link_depth := 0, blocks := [], current := none }

/-- `_finish_block`: clean the current block's text; append it if nonempty. -/
def finish_block (st : ExtractorState) : ExtractorState :=
  match st.current with
  | none => st
  | some cb =>
    let cleaned := pyCleanWsL cb.text.data
    if cleaned.isEmpty then { st with current := none }
    else
      let nb := { cb with
        text := String.mk cleaned,
        total_chars := max cb.total_chars cleaned.length }
      { st with blocks := st.blocks ++ [nb], current := none }

/-- `_start_block`: finish the previous block, open a fresh one. -/
def start_block (st : ExtractorState) (tag : String) : ExtractorState :=
  let st1 := finish_block st
  { st1 with
    current := some
      { index := st1.blocks.length, tag := tag, text := "", total_chars := 0,
        link_chars := 0, is_heading := HEADING_ELEMENTS.contains tag } }

/-- `handle_starttag`. -/
def handle_starttag (st : ExtractorState) (tag : String) : ExtractorState :=
  let t := tag.toLower
  if BLACKLIST_TAGS.contains t then
    { st with blacklist_depth := st.blacklist_depth + 1 }
  else if 0 < st.blacklist_depth then st
  else
    let st1 := if t = "a" then { st with link_depth := st.link_depth + 1 } else st
    if BLOCK_ELEMENTS.contains t then start_block st1 t else st1

/-- `handle_endtag`. -/
def handle_endtag (st : ExtractorState) (tag : String) : ExtractorState :=
  let t := tag.toLower
  if BLACKLIST_TAGS.contains t ∧ 0 < st.blacklist_depth then
    { st with blacklist_depth := st.blacklist_depth - 1 }
  else if 0 < st.blacklist_depth then st
  else
    let st1 :=
      if t = "a" ∧ 0 < st.link_depth then { st with link_depth := st.link_depth - 1 } else st
    if BLOCK_ELEMENTS.contains t ∧ st1.current.isSome then finish_block st1 else st1

/-- `handle_data`. -/
def handle_data (st : ExtractorState) (s : String) : ExtractorState :=
  if 0 < st.blacklist_depth then st
  else
    let cd := pyCleanWsL s.data
    if cd.isEmpty then st
    else
      let st1 := if st.current.isNone then start_block st "text" else st
      match st1.current with
      | none => st1
      | some cb =>
        { st1 with
          current := some
            { cb with
              text := (if cb.text ≠ "" then cb.text ++ " " else cb.text) ++ String.mk cd,
              total_chars := cb.total_chars + cd.length,
              link_chars :=
                cb.link_chars + (if 0 < st1.link_depth then cd.length else 0) } }

/-- Event dispatch. -/
def handle_event (st : ExtractorState) : HtmlEvent → ExtractorState
  | .startTag t => handle_starttag st t
  | .endTag t => handle_endtag st t
  | .data s => handle_data st s

/-- `_extract_blocks_with_html_events` + `get_blocks`. -/
def extract_blocks_with_html_events (events : List HtmlEvent) : List Block :=
  (finish_block (events.foldl handle_event initExtractorState)).blocks

/-! ## Block extractor (regex fallback path) -/

/-- Scan of `re.sub(r"<[^>]+>", " ", ·)`: replace every `<...>` group (at
least one non-`>` character between the brackets, up to the first `>`) by a
space. -/
def stripTagsAux : ℕ → List Char → List Char
  | 0, l => l
  | _, [] => []
  | fuel + 1, c :: cs =>
    if c = '<' then
      let inner := cs.takeWhile fun d => d ≠ '>'
      match cs.dropWhile fun d => d ≠ '>' with
      | '>' :: rest2 =>
        if 1 ≤ inner.length then ' ' :: stripTagsAux fuel rest2
        else c :: stripTagsAux fuel cs
      | _ => c :: stripTagsAux fuel cs
    else c :: stripTagsAux fuel cs

/-- `re.sub(r"<[^>]+>", " ", ·)`. -/
def stripTags (l : List Char) : List Char := stripTagsAux l.length l

/-- The `text_parts` list of `_extract_blocks_with_regex`, including the
whole-text fallback.  The stdlib regex scans over the script/style-stripped
document are abstracted as inputs: `tagMatches` is the concatenated list of
`(.*?)` captures of the per-tag `findall` calls (in scan order) and
`residue` is the document the final whole-text fallback flattens; the
per-match processing and the fallback follow the source. -/
def extractRegexParts (tagMatches : List String) (residue : String) : List String :=
  let text_parts :=
    (tagMatches.map fun m => String.mk (pyCleanWsL (stripTags m.data))).filter
      fun t => t != ""
  if text_parts.isEmpty then
    let all_text := String.mk (pyCleanWsL (stripTags residue.data))
    if all_text != "" then [all_text] else []
  else text_parts

/-- Block construction loop of `_extract_blocks_with_regex`. -/
def extract_blocks_with_regex (tagMatches : List String) (residue : String) : List Block :=
  (extractRegexParts tagMatches residue).enum.map fun p =>
    { index := p.1, tag := "regex", text := p.2, total_chars := p.2.data.length,
      link_chars := 0, is_heading := false }

/-! ## Top-level extraction -/

/-- `_validate_cleaning_strictness`; the `ValueError` is an `Except.error`. -/
def validate_cleaning_strictness (s : String) : Except String Unit :=
  if TEXT_CLEANING_STRICTNESS_LEVELS.contains s then Except.ok ()
  else Except.error ("Unsupported cleaning strictness: " ++ s)

/-- `extract_text_from_html_with_report` on the HTML-parser path (on a
parser error the source swaps in the regex fallback blocks; either block
source feeds the same validated pipeline). -/
def extract_text_from_html_with_report (events : List HtmlEvent) (strictness : String) :
    Except String (String × CleaningReport) :=
  match validate_cleaning_strictness strictness with
  | .error e => .error e
  | .ok _ =>
    let blocks := extract_blocks_with_html_events events
    if blocks.isEmpty then
      .ok ("", { strictness := strictness, total_blocks := 0, kept_blocks := 0,
                 removed_blocks := 0, removed_samples := [] })
    else .ok (clean_with_block_pipeline strictness blocks)

/-! ## Segment splitter (`chapter_tts.py`)

`ChapterTTS.split_text_into_sentences` interposes the spaCy sentencizer
(an external library) between the CJK split and the long-sentence split; it
is taken as a parameter `nlp : String → List String` returning the stripped
pipeline's sentence texts for one input. -/

/-- `cjk_endings` of `_split_cjk_sentences`. -/
def cjk_endings : List Char := ['。', '！', '？', '.', '!', '?']

/-- `clause_separators` of `_split_cjk_sentences` (the duplicate entry of the
source tuple is kept). -/
def clause_separators : List Char := ['；', '：', '，', '；', ':', ';', ',']

/-- Loop of the inner helper `split_on_chars`: accumulate characters,
emitting the stripped current sentence at each split character (and at the
end) when nonempty. -/
def splitOnCharsAux (sc : List Char) : List Char → List Char → List (List Char)
  | [], cur => if (pyStripL cur).isEmpty then [] else [pyStripL cur]
  | c :: cs, cur =>
    let cur2 := cur ++ [c]
    if sc.contains c then
      (if (pyStripL cur2).isEmpty then [] else [pyStripL cur2]) ++ splitOnCharsAux sc cs []
    else splitOnCharsAux sc cs cur2

/-- `split_on_chars`: if no split point produced any sentence, the original
text is returned whole. -/
def split_on_chars (l : List Char) (sc : List Char) : List (List Char) :=
  let r := splitOnCharsAux sc l []
  if r.isEmpty then [l] else r

/-- `_split_cjk_sentences`: split on sentence endings, then split any piece
longer than half the maximum on clause separators. -/
def split_cjk_sentences (maxLen : ℕ) (l : List Char) : List (List Char) :=
  (split_on_chars l cjk_endings).flatMap fun s =>
    if maxLen / 2 < s.length then split_on_chars s clause_separators else [s]

/-- `split_points` of `_split_long_sentence`, in source order (duplicates
kept; the two-character dash entry is preceded by its one-character prefix,
exactly as in the source tuple). -/
def split_points : List String :=
  [",", ";", ":", "—", "–", "-", "，", "；", "：", "、", "——",
   "、", "。", "，", "；", "：", "，", "；", "：", "、",
   "（", "）", "【", "】", "《", "》", "〈", "〉"]

/-- Python `sep in s` for a substring. -/
def containsSubstr (p l : List Char) : Bool :=
  l.tails.any fun t => p.isPrefixOf t

/-- Python `s.split(sep)` (non-overlapping, leftmost, keeps empty parts);
fuel decreases at each consumed character. -/
def splitOnSubstrAux (sep : List Char) : ℕ → List Char → List Char → List (List Char)
  | 0, l, cur => [cur ++ l]
  | _ + 1, [], cur => [cur]
  | fuel + 1, c :: cs, cur =>
    if sep.isPrefixOf (c :: cs) then
      cur :: splitOnSubstrAux sep fuel ((c :: cs).drop sep.length) []
    else splitOnSubstrAux sep fuel cs (cur ++ [c])

/-- Python `s.split(sep)`. -/
def splitOnSubstr (sep l : List Char) : List (List Char) :=
  splitOnSubstrAux sep l.length l []

/-- `_split_long_sentence`: split on every occurrence of the first matching
punctuation mark (reattaching it to all but the last nonempty part), else
split the whitespace-token list at its midpoint. -/
def split_long_sentence (sentence : List Char) : List (List Char) :=
  match split_points.find? fun p => containsSubstr p.data sentence with
  | some p =>
    let parts := splitOnSubstr p.data sentence
    parts.enum.filterMap fun q =>
      let part := pyStripL q.2
      if part.isEmpty then none
      else if q.1 < parts.length - 1 then some (part ++ p.data)
      else some part
  | none =>
    let words := pyTokens sentence
    let mid := words.length / 2
    [joinSp (words.take mid), joinSp (words.drop mid)]

/-- `ChapterTTS.split_text_into_sentences` with the spaCy sentencizer
abstracted as `nlp` and `max_sentence_length` as `maxLen`. -/
def split_text_into_sentences (nlp : String → List String) (maxLen : ℕ)
    (text : String) : List String :=
  if pyStrip text = "" then []
  else
    ((split_cjk_sentences maxLen (pyStrip text).data).flatMap fun s =>
      if (pyStripL s).isEmpty then []
      else
        (nlp (String.mk s)).flatMap fun sent =>
          if maxLen < (pyStripL sent.data).length then
            (split_long_sentence (pyStripL sent.data)).map String.mk
          else [String.mk (pyStripL sent.data)]).filter
      fun s2 => !(pyStripL s2.data).isEmpty

/-! ## Helper lemmas -/

theorem length_filter_add_length_filter_not {α : Type _} (l : List α) (p : α → Bool) :
    (l.filter p).length + (l.filter fun a => !p a).length = l.length := by
  induction l with
  | nil => rfl
  | cons a t ih => by_cases h : p a <;> simp [List.filter, h] <;> omega

theorem pyTokensAux_nonspace (l : List Char) :
    ∀ acc, (∀ c ∈ acc, pyIsSpace c = false) →
      ∀ t ∈ pyTokensAux l acc, t ≠ [] ∧ ∀ c ∈ t, pyIsSpace c = false := by
  induction l with
  | nil =>
    intro acc hacc t ht
    unfold pyTokensAux at ht
    split at ht
    · simp at ht
    · next h =>
      simp only [List.mem_singleton] at ht
      subst ht
      refine ⟨by simpa [List.isEmpty_iff] using h, ?_⟩
      intro c hc
      exact hacc c (List.mem_reverse.mp hc)
  | cons c cs ih =>
    intro acc hacc t ht
    unfold pyTokensAux at ht
    split at ht
    · split at ht
      · exact ih [] (by simp) t ht
      · next h =>
        rcases List.mem_cons.mp ht with rfl | ht2
        · refine ⟨by simpa [List.isEmpty_iff] using h, ?_⟩
          intro x hx
          exact hacc x (List.mem_reverse.mp hx)
        · exact ih [] (by simp) t ht2
    · next h =>
      refine ih (c :: acc) ?_ t ht
      intro x hx
      rcases List.mem_cons.mp hx with rfl | hx2
      · simpa using h
      · exact hacc x hx2

theorem joinSp_exists_nonspace :
    ∀ ts : List (List Char), ts ≠ [] →
      (∀ t ∈ ts, t ≠ [] ∧ ∀ c ∈ t, pyIsSpace c = false) →
      ∃ c ∈ joinSp ts, pyIsSpace c = false
  | [], h, _ => absurd rfl h
  | [t], _, hts => by
    obtain ⟨hne, hch⟩ := hts t (by simp)
    obtain ⟨c, hc⟩ := List.exists_mem_of_ne_nil t hne
    exact ⟨c, by simpa [joinSp] using hc, hch c hc⟩
  | t :: t2 :: ts, _, hts => by
    obtain ⟨hne, hch⟩ := hts t (by simp)
    obtain ⟨c, hc⟩ := List.exists_mem_of_ne_nil t hne
    refine ⟨c, ?_, hch c hc⟩
    show c ∈ t ++ ' ' :: joinSp (t2 :: ts)
    exact List.mem_append_left _ hc

theorem pyCleanWsL_exists_nonspace (l : List Char) (h : pyCleanWsL l ≠ []) :
    ∃ c ∈ pyCleanWsL l, pyIsSpace c = false := by
  have hforall := pyTokensAux_nonspace l [] (by simp)
  show ∃ c ∈ joinSp (pyTokens l), pyIsSpace c = false
  refine joinSp_exists_nonspace _ ?_ hforall
  intro hnil
  apply h
  show joinSp (pyTokens l) = []
  rw [hnil]
  rfl

theorem pyStripL_ne_nil (l : List Char) (h : ∃ c ∈ l, pyIsSpace c = false) :
    pyStripL l ≠ [] := by
  obtain ⟨c, hc, hns⟩ := h
  intro hnil
  unfold pyStripL at hnil
  rw [List.reverse_eq_nil_iff, List.dropWhile_eq_nil_iff] at hnil
  have h2 : ∀ x ∈ l.dropWhile pyIsSpace, pyIsSpace x = true := by
    intro x hx
    exact hnil x (List.mem_reverse.mpr hx)
  have hsplit : c ∈ l.takeWhile pyIsSpace ++ l.dropWhile pyIsSpace := by
    rw [List.takeWhile_append_dropWhile]
    exact hc
  rcases List.mem_append.mp hsplit with h3 | h3
  · exact absurd (List.mem_takeWhile_imp h3) (by simp [hns])
  · exact absurd (h2 c h3) (by simp [hns])

theorem stringMk_ne_empty_of_ne_nil (l : List Char) (h : l ≠ []) : String.mk l ≠ "" := by
  intro he
  exact h (congrArg String.data he)

/-- A block text that is a nonempty whitespace-collapsed string survives
`pyStrip` nonempty. -/
theorem pyStrip_cleanWs_ne_empty (raw : List Char) (h : pyCleanWsL raw ≠ []) :
    pyStrip (String.mk (pyCleanWsL raw)) ≠ "" := by
  apply stringMk_ne_empty_of_ne_nil
  apply pyStripL_ne_nil
  simpa using pyCleanWsL_exists_nonspace raw h

/-! ## Result accessors -/

/-- Whether an `Except` result is an error. -/
def exceptErrored {ε α : Type _} : Except ε α → Bool
  | .error _ => true
  | .ok _ => false

/-- Cleaned text of a successful extraction. -/
def extractionText (r : Except String (String × CleaningReport)) : Option String :=
  match r with
  | .ok p => some p.1
  | .error _ => none

/-- Report of a successful extraction. -/
def extractionReport (r : Except String (String × CleaningReport)) : Option CleaningReport :=
  match r with
  | .ok p => some p.2
  | .error _ => none

/-! ## C8: strictness validation -/

/-- C8: `extract_text_from_html_with_report` fails (with the `ValueError`
message of `_validate_cleaning_strictness`) exactly when the strictness is
not one of the three presets, for every event stream — the check runs before
any HTML processing; the three preset names never produce a validation
error. -/
theorem extract_validates_strictness (events : List HtmlEvent) (s : String) :
    exceptErrored (extract_text_from_html_with_report events s) =
      !(TEXT_CLEANING_STRICTNESS_LEVELS.contains s) ∧
    (TEXT_CLEANING_STRICTNESS_LEVELS.contains s = false →
      extract_text_from_html_with_report events s =
        .error ("Unsupported cleaning strictness: " ++ s)) := by
  by_cases h : TEXT_CLEANING_STRICTNESS_LEVELS.contains s = true
  · have hv : validate_cleaning_strictness s = Except.ok () := by
      unfold validate_cleaning_strictness
      rw [if_pos h]
    constructor
    · unfold extract_text_from_html_with_report
      rw [hv, h]
      dsimp only
      split <;> rfl
    · intro hf
      rw [h] at hf
      cases hf
  · have h2 : TEXT_CLEANING_STRICTNESS_LEVELS.contains s = false :=
      eq_false_of_ne_true h
    have hv : validate_cleaning_strictness s =
        Except.error ("Unsupported cleaning strictness: " ++ s) := by
      unfold validate_cleaning_strictness
      rw [if_neg h]
    constructor
    · unfold extract_text_from_html_with_report
      rw [hv, h2]
      rfl
    · intro _
      unfold extract_text_from_html_with_report
      rw [hv]

/-- Witness for C8 at a concrete invalid strictness. -/
theorem extract_validates_strictness_witness :
    extract_text_from_html_with_report [] "bogus" =
      .error ("Unsupported cleaning strictness: " ++ "bogus") :=
  (extract_validates_strictness [] "bogus").2 (by decide)

/-! ## C9: classifier frame -/

/-- C9: `_classify_block` only rewrites `text`, `classification`, `reason`,
`score` and the three densities; `index`, `tag`, `total_chars`,
`link_chars`, `is_heading` and `keep` are unchanged. -/
theorem classify_block_frame (cfg : StrictnessConfig) (b : Block) :
    (classify_block cfg b).index = b.index ∧
    (classify_block cfg b).tag = b.tag ∧
    (classify_block cfg b).total_chars = b.total_chars ∧
    (classify_block cfg b).link_chars = b.link_chars ∧
    (classify_block cfg b).is_heading = b.is_heading ∧
    (classify_block cfg b).keep = b.keep := by
  unfold classify_block
  by_cases h1 : classifyWrapperBad b = true
  · rw [if_pos h1]
    exact ⟨rfl, rfl, rfl, rfl, rfl, rfl⟩
  · rw [if_neg h1]
    by_cases h2 : is_noise_line (classifyNormText b) = true
    · rw [if_pos h2]
      exact ⟨rfl, rfl, rfl, rfl, rfl, rfl⟩
    · rw [if_neg h2]
      exact ⟨rfl, rfl, rfl, rfl, rfl, rfl⟩

/-! ## C4: sentence-final punctuation bonus -/

/-- A block passes the decorative-wrapper and noise-pattern short circuits
and reaches the scoring step. -/
def reaches_scoring (b : Block) : Bool :=
  !classifyWrapperBad b && !is_noise_line (classifyNormText b)

/-- The sum of every scoring contribution except the sentence-final
punctuation bonus, each term mirroring one conditional increment of
`_classify_block`. -/
def scoreWithoutSentenceBonus (config : StrictnessConfig) (b : Block) : ℚ :=
  classifyLengthScore config b +
  (if classifyLinkHit config b then -2 else 0) +
  (if classifyPunctHit config b then -1 else 0) +
  (if classifyStopHit config b then 1/2 else 0) +
  (if b.is_heading then 3/10 else 0)

/-- C4 (amended): for a block that reaches scoring, the `+0.5`
sentence-final bonus fires exactly on the character class `[。！？!?]` of the
source — when the normalized text contains one of those marks the score is
the remaining contributions plus `1/2`.  (The Latin period `.` is not in the
class; see the counterexample.) -/
theorem classify_sentence_bonus (config : StrictnessConfig) (b : Block)
    (h1 : reaches_scoring b = true) (h2 : classifySentenceHit b = true) :
    (classify_block config b).score = scoreWithoutSentenceBonus config b + 1/2 := by
  obtain ⟨hw, hn⟩ : classifyWrapperBad b = false ∧
      is_noise_line (classifyNormText b) = false := by
    simpa [reaches_scoring] using h1
  unfold classify_block
  rw [if_neg (by simp [hw]), if_neg (by simp [hn])]
  dsimp only
  unfold scoreWithoutSentenceBonus
  rw [h2]
  by_cases hl : classifyLinkHit config b <;>
    by_cases hp : classifyPunctHit config b <;>
    by_cases hs : classifyStopHit config b <;>
    by_cases hh : b.is_heading <;>
    simp [hl, hp, hs, hh] <;> ring

/-- The concrete block refuting C4 as stated: its text ends in a Latin
period. -/
def c4Block : Block :=
  { index := 0, tag := "p", text := "abc.", total_chars := 4, link_chars := 0,
    is_heading := false }

/-- The same block with the period replaced by an exclamation mark. -/
def c4BangBlock : Block := { c4Block with text := "abc!" }

/-- C4 counterexample: the text `"abc."` contains the Latin period (a
CJK/Latin sentence-final mark per the claim) and reaches scoring, yet its
score is exactly the bonus-free sum — the `+0.5` bonus is not granted —
while the identical block with `"abc!"` does receive it. -/
theorem classify_sentence_bonus_counterexample :
    "abc.".data.contains '.' = true ∧
    reaches_scoring c4Block = true ∧
    (classify_block balancedConfig c4Block).score =
      scoreWithoutSentenceBonus balancedConfig c4Block ∧
    (classify_block balancedConfig c4Block).score ≠
      scoreWithoutSentenceBonus balancedConfig c4Block + 1/2 ∧
    (classify_block balancedConfig c4BangBlock).score =
      scoreWithoutSentenceBonus balancedConfig c4BangBlock + 1/2 := by
  with_unfolding_all decide

/-- Witness for the amended C4 at a concrete block. -/
theorem classify_sentence_bonus_witness :
    (classify_block balancedConfig c4BangBlock).score =
      scoreWithoutSentenceBonus balancedConfig c4BangBlock + 1/2 :=
  classify_sentence_bonus balancedConfig c4BangBlock (by decide) (by decide)

/-! ## C2: reading discipline of the reclassifier traversal -/

theorem stepAt_getElem?_gt (d : Option Block → Option Block → Block → Block)
    (rn cur : List Block) (i j : ℕ) (h : i < j) :
    (stepAt d rn cur i)[j]? = cur[j]? := by
  unfold stepAt
  split
  · rfl
  · exact List.getElem?_set_ne (Nat.ne_of_lt h)

theorem realPass_range_eq_hybrid (d : Option Block → Option Block → Block → Block)
    (bs : List Block) :
    ∀ (n k : ℕ) (cur : List Block), (∀ j, k ≤ j → cur[j]? = bs[j]?) →
      (List.range' k n).foldl (fun c i => stepAt d c c i) cur =
      (List.range' k n).foldl (fun c i => stepAt d bs c i) cur := by
  intro n
  induction n with
  | zero => intro k cur _; rfl
  | succ m ih =>
    intro k cur h
    rw [List.range'_succ k m 1]
    dsimp only [List.foldl]
    have hnext : cur[k + 1]? = bs[k + 1]? := h (k + 1) (Nat.le_succ k)
    have hstep : stepAt d cur cur k = stepAt d bs cur k := by
      unfold stepAt
      rw [hnext]
    rw [hstep]
    apply ih (k + 1)
    intro j hj
    have hkj : k < j := lt_of_lt_of_le (Nat.lt_succ_self k) hj
    rw [stepAt_getElem?_gt d bs cur k j hkj]
    exact h j (le_of_lt hkj)

/-- A single in-place pass reads the next neighbour from the pre-pass list:
positions after the cursor are untouched when the cursor reaches them. -/
theorem realPass_eq_hybridPass (d : Option Block → Option Block → Block → Block)
    (bs : List Block) : realPass d bs = hybridPass d bs := by
  unfold realPass hybridPass
  rw [List.range_eq_range' bs.length]
  exact realPass_range_eq_hybrid d bs bs.length 0 bs (fun j _ => rfl)

/-- C2 (amended): each in-place pass of `_apply_context_reclassification` is
equivalent to a traversal that reads the **next** neighbour's classification
from the pre-pass snapshot while reading the **previous** neighbour's
classification from the current, already partially rewritten list — writes
cascade leftward within one pass (see the counterexample for the full
pre-pass-snapshot reading the specification asserts). -/
theorem context_reclassification_hybrid (s : String) (bs : List Block) :
    apply_context_reclassification s bs = hybridContextReclassification s bs := by
  unfold apply_context_reclassification hybridContextReclassification
  dsimp only
  rw [realPass_eq_hybridPass (pass1Decide s) bs,
    realPass_eq_hybridPass (pass2Decide s)]

/-- Extractor-shaped raw blocks for the C2 counterexample. -/
def c2RawBlocks : List Block :=
  [{ index := 0, tag := "p", text := "We win, so be it!", total_chars := 17,
     link_chars := 0, is_heading := false },
   { index := 1, tag := "p", text := "and the king", total_chars := 12,
     link_chars := 0, is_heading := false },
   { index := 2, tag := "p",
     text := "这是一个很长的段落，我们在这里写了很多的内容，这些文字是用来测试的。",
     total_chars := 34, link_chars := 0, is_heading := false }]

/-- The C2 counterexample sequence as the classifier hands it to the
reclassifier. -/
def c2Classified : List Block := c2RawBlocks.map (classify_block balancedConfig)

/-- C2 counterexample: on a concrete classified three-block sequence the
in-place traversal and the pre-pass-snapshot traversal disagree (the middle
block ends `good`/`context_promoted` in place, but
`near_good`/`short_suffix_for_content` under snapshot reads), so the
traversal is not equivalent to one reading both neighbours from an immutable
pre-pass copy. -/
theorem context_reclassification_snapshot_counterexample :
    (apply_context_reclassification "balanced" c2Classified).map
        (fun b => (b.classification, b.reason)) ≠
      (snapshotContextReclassification "balanced" c2Classified).map
        (fun b => (b.classification, b.reason)) := by
  with_unfolding_all decide

/-! ## C3: reclassifier idempotence -/

/-- Extractor-shaped raw blocks for the C3 counterexample: a short heading
followed by a short CJK sentence. -/
def c3RawBlocks : List Block :=
  [{ index := 0, tag := "h2", text := "Intro", total_chars := 5,
     link_chars := 0, is_heading := true },
   { index := 1, tag := "p", text := "你好吗？", total_chars := 4,
     link_chars := 0, is_heading := false }]

/-- The C3 counterexample sequence as classified. -/
def c3Classified : List Block := c3RawBlocks.map (classify_block balancedConfig)

/-- C3 counterexample: running `_apply_context_reclassification` on its own
output changes the sequence again — the first pass promotes the second block
to `near_good` only after the heading at index 0 has been examined, so a
second run newly fires the heading rule at index 0.  The reclassifier is not
idempotent on classifier output. -/
theorem context_reclassification_idempotence_counterexample :
    (apply_context_reclassification "balanced"
        (apply_context_reclassification "balanced" c3Classified)).map
        (fun b => (b.classification, b.reason)) ≠
      (apply_context_reclassification "balanced" c3Classified).map
        (fun b => (b.classification, b.reason)) := by
  with_unfolding_all decide

/-- C3 (amended): the reclassifier is idempotent only on sequences it
already leaves unchanged — if one run is the identity on a sequence, a
second run changes nothing. -/
theorem context_reclassification_idempotent_on_fixed (s : String) (bs : List Block)
    (h : apply_context_reclassification s bs = bs) :
    apply_context_reclassification s (apply_context_reclassification s bs) =
      apply_context_reclassification s bs := by
  rw [h]
  exact h

/-- A concrete one-block fixed point of the reclassifier. -/
def c3FixedBlocks : List Block :=
  [classify_block balancedConfig
    { index := 0, tag := "p", text := "ab", total_chars := 2, link_chars := 0,
      is_heading := false }]

/-- Witness for the amended C3 at a concrete fixed point. -/
theorem context_reclassification_idempotent_on_fixed_witness :
    apply_context_reclassification "balanced"
        (apply_context_reclassification "balanced" c3FixedBlocks) =
      apply_context_reclassification "balanced" c3FixedBlocks :=
  context_reclassification_idempotent_on_fixed "balanced" c3FixedBlocks
    (by with_unfolding_all decide)

/-! ## C7: extractor block invariants -/

/-- The extractor-state invariant: every emitted block keeps
`link_chars ≤ total_chars` and a nonempty trimmed text, block indices equal
their positions, and the open block (if any) has the next index and bounded
link count. -/
def StInv (st : ExtractorState) : Prop :=
  (∀ b ∈ st.blocks, b.link_chars ≤ b.total_chars ∧ pyStrip b.text ≠ "") ∧
  (∀ (i : ℕ) (b : Block), st.blocks[i]? = some b → b.index = i) ∧
  (∀ cb, st.current = some cb →
    cb.index = st.blocks.length ∧ cb.link_chars ≤ cb.total_chars)

theorem stInv_init : StInv initExtractorState := by
  refine ⟨?_, ?_, ?_⟩
  · intro b hb
    cases hb
  · intro i b hib
    simp [initExtractorState] at hib
  · intro cb hcb
    cases hcb

theorem stInv_finish_block (st : ExtractorState) (h : StInv st) :
    StInv (finish_block st) := by
  obtain ⟨hb, hi, hc⟩ := h
  unfold finish_block
  rcases hcur : st.current with _ | cb
  · exact ⟨hb, hi, fun cb2 h2 => hc cb2 (hcur ▸ h2)⟩
  · obtain ⟨hidx, hlk⟩ := hc cb hcur
    dsimp only
    by_cases hclean : (pyCleanWsL cb.text.data).isEmpty
    · rw [if_pos hclean]
      exact ⟨hb, hi, fun cb2 h2 => by cases h2⟩
    · rw [if_neg hclean]
      have hne : pyCleanWsL cb.text.data ≠ [] := by
        simpa [List.isEmpty_iff] using hclean
      refine ⟨?_, ?_, fun cb2 h2 => by cases h2⟩
      · intro b hb2
        rcases List.mem_append.mp hb2 with h3 | h3
        · exact hb b h3
        · rcases List.mem_singleton.mp h3 with rfl
          constructor
          · exact le_trans hlk (le_max_left _ _)
          · exact pyStrip_cleanWs_ne_empty _ hne
      · intro i b hib
        by_cases hlt : i < st.blocks.length
        · rw [List.getElem?_append, if_pos hlt] at hib
          exact hi i b hib
        · have hlen : i < st.blocks.length + 1 := by
            have h4 := (List.getElem?_eq_some.mp hib).1
            simpa using h4
          have hieq : i = st.blocks.length := by omega
          subst hieq
          rw [List.getElem?_concat_length] at hib
          cases hib
          exact hidx

theorem stInv_start_block (st : ExtractorState) (tag : String) (h : StInv st) :
    StInv (start_block st tag) := by
  have h1 := stInv_finish_block st h
  obtain ⟨hb, hi, _⟩ := h1
  refine ⟨hb, hi, ?_⟩
  intro cb hcb
  cases hcb
  exact ⟨rfl, le_refl 0⟩

theorem stInv_handle_starttag (st : ExtractorState) (tag : String) (h : StInv st) :
    StInv (handle_starttag st tag) := by
  unfold handle_starttag
  dsimp only
  split
  · exact h
  · split
    · exact h
    · by_cases h3 : tag.toLower = "a"
      · rw [if_pos h3]
        split
        · exact stInv_start_block _ _ h
        · exact h
      · rw [if_neg h3]
        split
        · exact stInv_start_block _ _ h
        · exact h

theorem stInv_handle_endtag (st : ExtractorState) (tag : String) (h : StInv st) :
    StInv (handle_endtag st tag) := by
  unfold handle_endtag
  dsimp only
  split
  · exact h
  · split
    · exact h
    · by_cases h3 : (tag.toLower = "a" ∧ 0 < st.link_depth)
      · rw [if_pos h3]
        split
        · exact stInv_finish_block _ h
        · exact h
      · rw [if_neg h3]
        split
        · exact stInv_finish_block _ h
        · exact h

theorem ite_le_self (c : Prop) [Decidable c] (n : ℕ) : (if c then n else 0) ≤ n := by
  split
  · exact Nat.le_refl n
  · exact Nat.zero_le n

theorem stInv_handle_data (st : ExtractorState) (s : String) (h : StInv st) :
    StInv (handle_data st s) := by
  unfold handle_data
  split
  · exact h
  · dsimp only
    split
    · exact h
    · have h1 : StInv (if st.current.isNone then start_block st "text" else st) := by
        split
        · exact stInv_start_block st "text" h
        · exact h
      rcases h1 with ⟨hb, hi, hc⟩
      split
      · exact ⟨hb, hi, hc⟩
      · next cb hcb =>
        obtain ⟨hidx, hlk⟩ := hc cb hcb
        refine ⟨hb, hi, ?_⟩
        intro cb2 h2
        cases h2
        exact ⟨hidx, Nat.add_le_add hlk (ite_le_self _ _)⟩

theorem stInv_handle_event (st : ExtractorState) (e : HtmlEvent) (h : StInv st) :
    StInv (handle_event st e) := by
  cases e with
  | startTag t => exact stInv_handle_starttag st t h
  | endTag t => exact stInv_handle_endtag st t h
  | data s => exact stInv_handle_data st s h

theorem stInv_fold (events : List HtmlEvent) :
    ∀ st : ExtractorState, StInv st → StInv (events.foldl handle_event st) := by
  induction events with
  | nil => intro st h; exact h
  | cons e es ih =>
    intro st h
    exact ih (handle_event st e) (stInv_handle_event st e h)

/-- C7: on both extraction paths every emitted block satisfies
`link_chars ≤ total_chars` and has a nonempty trimmed text, and block
indices are exactly the positions `0, 1, 2, …` in document order (strictly
increasing, gapless, no duplicates). -/
theorem extractor_block_invariants :
    (∀ events : List HtmlEvent,
      (∀ b ∈ extract_blocks_with_html_events events,
        b.link_chars ≤ b.total_chars ∧ pyStrip b.text ≠ "") ∧
      (∀ (i : ℕ) (b : Block),
        (extract_blocks_with_html_events events)[i]? = some b → b.index = i)) ∧
    (∀ (ms : List String) (fb : String),
      (∀ b ∈ extract_blocks_with_regex ms fb,
        b.link_chars ≤ b.total_chars ∧ pyStrip b.text ≠ "") ∧
      (∀ (i : ℕ) (b : Block),
        (extract_blocks_with_regex ms fb)[i]? = some b → b.index = i)) := by
  constructor
  · intro events
    have h := stInv_finish_block _ (stInv_fold events initExtractorState stInv_init)
    exact ⟨h.1, h.2.1⟩
  · intro ms fb
    have hparts : ∀ p, p ∈ extractRegexParts ms fb → pyStrip p ≠ "" := by
      intro p hp
      unfold extractRegexParts at hp
      dsimp only at hp
      split at hp
      · split at hp
        · next hcond =>
          rcases List.mem_singleton.mp hp with rfl
          apply pyStrip_cleanWs_ne_empty
          intro hnil
          rw [hnil] at hcond
          exact absurd hcond (by decide)
        · cases hp
      · have h2 := List.mem_filter.mp hp
        obtain ⟨m, _, rfl⟩ := List.mem_map.mp h2.1
        apply pyStrip_cleanWs_ne_empty
        intro hnil
        have h3 := h2.2
        rw [hnil] at h3
        exact absurd h3 (by decide)
    constructor
    · intro b hb
      unfold extract_blocks_with_regex at hb
      obtain ⟨q, hq, rfl⟩ := List.mem_map.mp hb
      exact ⟨Nat.zero_le _, hparts q.2 (List.snd_mem_of_mem_enum hq)⟩
    · intro i b hib
      unfold extract_blocks_with_regex at hib
      rw [List.getElem?_map, List.getElem?_enum] at hib
      obtain ⟨pr, hpr1, rfl⟩ := Option.map_eq_some'.mp hib
      obtain ⟨p, _, rfl⟩ := Option.map_eq_some'.mp hpr1
      rfl

/-- Concrete emitted block for the C7 witness (from the event stream
`[data "hi"]`). -/
def c7Block : Block :=
  { index := 0, tag := "text", text := "hi", total_chars := 2, link_chars := 0,
    is_heading := false }

/-- Concrete regex-fallback block for the C7 witness. -/
def c7RegexBlock : Block :=
  { index := 0, tag := "regex", text := "x", total_chars := 1, link_chars := 0,
    is_heading := false }

/-- Witness for C7 on both paths at concrete inputs. -/
theorem extractor_block_invariants_witness :
    (c7Block.link_chars ≤ c7Block.total_chars ∧ pyStrip c7Block.text ≠ "") ∧
    c7RegexBlock.index = 0 :=
  ⟨(extractor_block_invariants.1 [HtmlEvent.data "hi"]).1 c7Block
      (by with_unfolding_all decide),
   (extractor_block_invariants.2 ["x"] "").2 0 c7RegexBlock
      (by with_unfolding_all decide)⟩

/-! ## C1: end-to-end example -/

/-- The event stream the stdlib HTML tokenizer produces for
`"<h1>目录</h1><p>第一章 童年 ........ 12</p><p>这里是正文。</p>"`. -/
def c1Events : List HtmlEvent :=
  [.startTag "h1", .data "目录", .endTag "h1",
   .startTag "p", .data "第一章 童年 ........ 12", .endTag "p",
   .startTag "p", .data "这里是正文。", .endTag "p"]

/-- C1: on the specification's example document with `balanced` strictness
the cleaned text is exactly `"这里是正文。"`, the report counts at least one
removed block, and some removed sample carries the reason
`"noise_pattern"`. -/
theorem extract_c1_example :
    (extractionText (extract_text_from_html_with_report c1Events "balanced")).isSome =
      true ∧
    (extractionText (extract_text_from_html_with_report c1Events "balanced")).getD "" =
      "这里是正文。" ∧
    (extractionReport (extract_text_from_html_with_report c1Events "balanced")).map
        (fun rep => decide (1 ≤ rep.removed_blocks)) = some true ∧
    (extractionReport (extract_text_from_html_with_report c1Events "balanced")).map
        (fun rep => rep.removed_samples.any fun smp => smp.reason == "noise_pattern") =
      some true := by
  set_option maxRecDepth 1024 in with_unfolding_all decide

/-! ## C5: segment length bound -/

/-- C5 (amended): every segment emitted by `split_text_into_sentences` is
either within the configured maximum, or is one of the pieces
`_split_long_sentence` produced from an over-long sentence — and that
splitter may emit pieces longer than the maximum even when further split
points remain (see the counterexample). -/
theorem split_segments_bounded_or_from_long (nlp : String → List String)
    (maxLen : ℕ) (text : String) (s : String)
    (hs : s ∈ split_text_into_sentences nlp maxLen text) :
    s.data.length ≤ maxLen ∨
    ∃ t : List Char, maxLen < t.length ∧ s ∈ (split_long_sentence t).map String.mk := by
  unfold split_text_into_sentences at hs
  split at hs
  · cases hs
  · have hs2 := (List.mem_filter.mp hs).1
    obtain ⟨piece, _, hs3⟩ := List.mem_flatMap.mp hs2
    split at hs3
    · cases hs3
    · obtain ⟨sent, _, hs4⟩ := List.mem_flatMap.mp hs3
      split at hs4
      · next hlen => exact Or.inr ⟨pyStripL sent.data, hlen, hs4⟩
      · next hlen =>
        rcases List.mem_singleton.mp hs4 with rfl
        exact Or.inl (by simpa using Nat.le_of_not_lt hlen)

/-- The spaCy sentencizer splits only at sentence-final punctuation, so on a
punctuation-free sentence it returns the sentence whole; this is the `nlp`
behaviour the counterexample instantiates. -/
def c5nlp : String → List String := fun s => [s]

/-- C5 counterexample: with maximum length 10, the input
`"ab-cccccccccccc、dd"` yields the segment `"cccccccccccc、dd"` of length 15
> 10, even though it still contains the clause separator `、`, which is in
`_split_long_sentence`'s own split list — the splitter used only the first
matching mark (`-`) and never recursed. -/
theorem split_long_sentence_bound_counterexample :
    split_text_into_sentences c5nlp 10 "ab-cccccccccccc、dd" =
      ["ab-", "cccccccccccc、dd"] ∧
    10 < "cccccccccccc、dd".data.length ∧
    containsSubstr "、".data "cccccccccccc、dd".data = true ∧
    "、" ∈ split_points := by
  decide

/-- Witness for the amended C5 at a concrete short input. -/
theorem split_segments_bounded_or_from_long_witness :
    "hi".data.length ≤ 10 ∨
    ∃ t : List Char, 10 < t.length ∧ "hi" ∈ (split_long_sentence t).map String.mk :=
  split_segments_bounded_or_from_long c5nlp 10 "hi" "hi" (by decide)

/-! ## C6: report consistency and field set -/

/-- C6 (amended): each report satisfies
`kept_blocks + removed_blocks = total_blocks`, carries at most 20 removed
samples, and each sample records a removed block's index, tag, first 200
characters of text, classification, reason, and rounded score and densities.
The report has no character counts and no retention ratio (see the
counterexample). -/
theorem serialize_report_consistency (bs : List Block) (s : String) :
    (serialize_report bs s).kept_blocks + (serialize_report bs s).removed_blocks =
      (serialize_report bs s).total_blocks ∧
    (serialize_report bs s).removed_samples.length ≤ 20 ∧
    (∀ smp ∈ (serialize_report bs s).removed_samples, ∃ b ∈ bs, b.keep = false ∧
      smp.index = b.index ∧ smp.tag = b.tag ∧
      smp.text = String.mk (b.text.data.take 200) ∧
      smp.classification = b.classification ∧ smp.reason = b.reason ∧
      smp.score = round3 b.score ∧ smp.link_density = round3 b.link_density ∧
      smp.punct_density = round3 b.punct_density ∧
      smp.stopword_density = round3 b.stopword_density) := by
  refine ⟨?_, ?_, ?_⟩
  · exact length_filter_add_length_filter_not bs fun b => b.keep
  · show (((bs.filter fun b => !b.keep).take 20).map mkRemovedSample).length ≤ 20
    rw [List.length_map, List.length_take]
    exact min_le_left _ _
  · intro smp hsmp
    obtain ⟨b, hb, rfl⟩ := List.mem_map.mp hsmp
    have hb2 := List.mem_of_mem_take hb
    have hb3 := List.mem_filter.mp hb2
    refine ⟨b, hb3.1, ?_, rfl, rfl, rfl, rfl, rfl, rfl, rfl, rfl, rfl⟩
    simpa using hb3.2

/-- Events of a small concrete extraction run for the C6 counterexample. -/
def c6Events : List HtmlEvent := [.startTag "p", .data "Hello there.", .endTag "p"]

/-- C6 counterexample: the report of a concrete extraction run (with
nonempty raw text) contains none of the keys `retention_ratio`, `raw_chars`,
`kept_chars`, `removed_chars` — the claimed character counts and retention
ratio are absent from the dict `_serialize_report` returns. -/
theorem serialize_report_no_char_counts_counterexample :
    (extractionReport (extract_text_from_html_with_report c6Events "balanced")).map
        (fun rep =>
          (dictLookup (reportToDict rep) "retention_ratio",
           dictLookup (reportToDict rep) "raw_chars",
           dictLookup (reportToDict rep) "kept_chars",
           dictLookup (reportToDict rep) "removed_chars")) =
      some (none, none, none, none) ∧
    (extractionReport (extract_text_from_html_with_report c6Events "balanced")).map
        (fun rep => decide (1 ≤ rep.total_blocks)) = some true := by
  with_unfolding_all decide

/-- Concrete removed block for the C6 witness. -/
def c6Block : Block :=
  { index := 0, tag := "p", text := "abc", total_chars := 3, link_chars := 0,
    is_heading := false }

/-- Witness for the amended C6 at a concrete report. -/
theorem serialize_report_consistency_witness :
    ∃ b ∈ [c6Block], b.keep = false ∧
      (mkRemovedSample c6Block).index = b.index ∧
      (mkRemovedSample c6Block).tag = b.tag ∧
      (mkRemovedSample c6Block).text = String.mk (b.text.data.take 200) ∧
      (mkRemovedSample c6Block).classification = b.classification ∧
      (mkRemovedSample c6Block).reason = b.reason ∧
      (mkRemovedSample c6Block).score = round3 b.score ∧
      (mkRemovedSample c6Block).link_density = round3 b.link_density ∧
      (mkRemovedSample c6Block).punct_density = round3 b.punct_density ∧
      (mkRemovedSample c6Block).stopword_density = round3 b.stopword_density :=
  (serialize_report_consistency [c6Block] "balanced").2.2 (mkRemovedSample c6Block)
    (by with_unfolding_all decide)

/-! ## C10: regex-fallback blocks disable two signals -/

/-- C10: every regex-fallback block has `tag = "regex"`, zero link
characters and no heading flag; consequently under any preset the
classifier's link density is zero, the high-link-density penalty guard is
off, the recorded reason is never `high_link_density`, and the heading bonus
term is zero. -/
theorem classify_zero_link (cfg : StrictnessConfig) (b : Block)
    (h0 : b.link_chars = 0) (hd : b.link_density = 0)
    (hpos : 0 < cfg.max_link_density) :
    (classify_block cfg b).link_density = 0 ∧ classifyLinkHit cfg b = false ∧
    (classify_block cfg b).reason ≠ "high_link_density" := by
  have hld : classifyLinkDensity b = 0 := by
    unfold classifyLinkDensity
    rw [h0]
    simp
  have hhit : classifyLinkHit cfg b = false := by
    unfold classifyLinkHit
    rw [hld]
    exact decide_eq_false (not_lt.mpr (le_of_lt hpos))
  refine ⟨?_, hhit, ?_⟩
  · unfold classify_block
    by_cases h1 : classifyWrapperBad b = true
    · rw [if_pos h1]
      exact hd
    · rw [if_neg h1]
      dsimp only
      by_cases h2 : is_noise_line (classifyNormText b) = true
      · rw [if_pos h2]
        exact hld
      · rw [if_neg h2]
        exact hld
  · unfold classify_block
    by_cases h1 : classifyWrapperBad b = true
    · rw [if_pos h1]
      exact (by decide : "decorative_wrapper_marker" ≠ "high_link_density")
    · rw [if_neg h1]
      dsimp only
      by_cases h2 : is_noise_line (classifyNormText b) = true
      · rw [if_pos h2]
        exact (by decide : "noise_pattern" ≠ "high_link_density")
      · rw [if_neg h2]
        dsimp only
        rw [hhit]
        split
        · exact (by decide : "low_punctuation_density" ≠ "high_link_density")
        · exact (by decide : "content_like" ≠ "high_link_density")

theorem regex_fallback_disables_link_and_heading (ms : List String) (fb : String)
    (s : String) (cfg : StrictnessConfig) (hs : STRICTNESS_CONFIGS s = some cfg)
    (b : Block) (hb : b ∈ extract_blocks_with_regex ms fb) :
    b.tag = "regex" ∧ b.link_chars = 0 ∧ b.is_heading = false ∧
    (classify_block cfg b).link_density = 0 ∧
    classifyLinkHit cfg b = false ∧
    (classify_block cfg b).reason ≠ "high_link_density" ∧
    (if b.is_heading then (3/10 : ℚ) else 0) = 0 := by
  have hpos : 0 < cfg.max_link_density := by
    unfold STRICTNESS_CONFIGS at hs
    split_ifs at hs <;> cases hs <;> norm_num [conservativeConfig, balancedConfig,
      aggressiveConfig]
  unfold extract_blocks_with_regex at hb
  obtain ⟨q, _, rfl⟩ := List.mem_map.mp hb
  obtain ⟨hl1, hl2, hl3⟩ := classify_zero_link cfg
    { index := q.1, tag := "regex", text := q.2, total_chars := q.2.data.length,
      link_chars := 0, is_heading := false } rfl rfl hpos
  exact ⟨rfl, rfl, rfl, hl1, hl2, hl3, rfl⟩

/-- Concrete fallback block for the C10 witness. -/
def c10Block : Block :=
  { index := 0, tag := "regex", text := "x", total_chars := 1, link_chars := 0,
    is_heading := false }

/-- Witness for C10 at a concrete fallback block under `balanced`. -/
theorem regex_fallback_disables_link_and_heading_witness :
    c10Block.tag = "regex" ∧ c10Block.link_chars = 0 ∧ c10Block.is_heading = false ∧
    (classify_block balancedConfig c10Block).link_density = 0 ∧
    classifyLinkHit balancedConfig c10Block = false ∧
    (classify_block balancedConfig c10Block).reason ≠ "high_link_density" ∧
    (if c10Block.is_heading then (3/10 : ℚ) else 0) = 0 :=
  regex_fallback_disables_link_and_heading ["x"] "" "balanced" balancedConfig
    (by with_unfolding_all decide) c10Block (by with_unfolding_all decide)

end Epub2Speech
